import Mathlib

/-!
Shallow embedding of the native solar-position pipeline (function `ephemeris`
of `pvlib/solarposition.py`) over the real numbers, together with proofs of
the specification claims about it.  Every definition mirrors one line or
stage of the source; floating-point evaluation is read as exact real
arithmetic, `np.mod`, `np.floor`, `np.arctan2`, `np.degrees`, `np.radians`
are modelled by the corresponding exact operations.
-/

open Classical

/-- np.radians: degrees to radians. -/
noncomputable def radians (x : ℝ) : ℝ := x * Real.pi / 180

/-- np.degrees: radians to degrees. -/
noncomputable def degrees (x : ℝ) : ℝ := x * 180 / Real.pi

/-- np.mod(x, 360): remainder in [0, 360). -/
noncomputable def mod360 (x : ℝ) : ℝ := x - 360 * (⌊x / 360⌋ : ℤ)

/-- np.arctan2(y, x) over exact reals: angle in (-pi, pi]. -/
noncomputable def atan2 (y x : ℝ) : ℝ :=
  if 0 < x then Real.arctan (y / x)
  else if x < 0 then
    (if 0 ≤ y then Real.arctan (y / x) + Real.pi else Real.arctan (y / x) - Real.pi)
  else
    (if 0 < y then Real.pi / 2 else if y < 0 then -(Real.pi / 2) else 0)

/-- One instant of the input batch: year, day of year, decimal UTC hour, the
fields the source extracts from the UTC timestamp. -/
structure EphemInput where
  year : ℤ
  dayOfYear : ℝ
  decHours : ℝ

/-- One row of the output: the six columns assembled into DFOut. -/
structure EphemRecord where
  elevation : ℝ
  azimuth : ℝ
  zenith : ℝ
  apparent_elevation : ℝ
  apparent_zenith : ℝ
  solar_time : ℝ

/-- Abber = 20 / 3600, the aberration correction in degrees. -/
noncomputable def Abber : ℝ := 20 / 3600

/-- YrBegin = 365 * Yr + floor((Yr - 1) / 4) - 0.5, with Yr = year - 1900. -/
noncomputable def YrBegin (i : EphemInput) : ℝ :=
  365 * ((i.year : ℝ) - 1900) + (⌊((i.year : ℝ) - 1901) / 4⌋ : ℤ) - 0.5

/-- Ezero = YrBegin + UnivDate (UnivDate = day of year). -/
noncomputable def Ezero (i : EphemInput) : ℝ := YrBegin i + i.dayOfYear

/-- T = Ezero / 36525. -/
noncomputable def Tcent (i : EphemInput) : ℝ := Ezero i / 36525

/-- GMST0 before reduction: 6/24 + 38/1440 + (45.836 + 8640184.542 T + 0.0929 T^2)/86400. -/
noncomputable def GMST0pre (i : EphemInput) : ℝ :=
  6 / 24 + 38 / 1440 + (45.836 + 8640184.542 * Tcent i + 0.0929 * Tcent i ^ 2) / 86400

/-- GMST0 = 360 * (GMST0pre - floor GMST0pre). -/
noncomputable def GMST0 (i : EphemInput) : ℝ :=
  360 * (GMST0pre i - (⌊GMST0pre i⌋ : ℤ))

/-- GMSTi = mod(GMST0 + 360 * (1.0027379093 * UnivHr / 24), 360). -/
noncomputable def GMSTi (i : EphemInput) : ℝ :=
  mod360 (GMST0 i + 360 * (1.0027379093 * i.decHours / 24))

/-- Longitude = -1 * location.longitude: the single internal sign flip. -/
noncomputable def internalLongitude (lon : ℝ) : ℝ := -1 * lon

/-- LocAST = mod(360 + GMSTi - Longitude, 360), with the internally negated longitude. -/
noncomputable def LocAST (i : EphemInput) (lon : ℝ) : ℝ :=
  mod360 (360 + GMSTi i - internalLongitude lon)

/-- EpochDate = Ezero + UnivHr / 24. -/
noncomputable def EpochDate (i : EphemInput) : ℝ := Ezero i + i.decHours / 24

/-- T1 = EpochDate / 36525. -/
noncomputable def T1 (i : EphemInput) : ℝ := EpochDate i / 36525

/-- ObliquityR, radians of the obliquity polynomial in T1. -/
noncomputable def ObliquityR (i : EphemInput) : ℝ :=
  radians (23.452294 - 0.0130125 * T1 i - 1.64e-6 * T1 i ^ 2 + 5.03e-7 * T1 i ^ 3)

/-- MlPerigee, mean longitude of perigee polynomial. -/
noncomputable def MlPerigee (i : EphemInput) : ℝ :=
  281.22083 + 4.70684e-5 * EpochDate i + 0.000453 * T1 i ^ 2 + 3e-6 * T1 i ^ 3

/-- MeanAnom = mod(358.47583 + 0.985600267 EpochDate - 0.00015 T1^2 - 3e-6 T1^3, 360). -/
noncomputable def MeanAnom (i : EphemInput) : ℝ :=
  mod360 (358.47583 + 0.985600267 * EpochDate i - 0.00015 * T1 i ^ 2 - 3e-6 * T1 i ^ 3)

/-- Eccen = 0.01675104 - 4.18e-5 T1 - 1.26e-7 T1^2. -/
noncomputable def Eccen (i : EphemInput) : ℝ :=
  0.01675104 - 4.18e-5 * T1 i - 1.26e-7 * T1 i ^ 2

/-- Value of the EccenAnom variable after n executions of the loop body
E := EccenAnom; EccenAnom := MeanAnom + degrees(Eccen) * sin(radians(E)),
starting from EccenAnom = MeanAnom. -/
noncomputable def keplerE (M e : ℝ) : ℕ → ℝ
  | 0 => M
  | n + 1 => M + degrees e * Real.sin (radians (keplerE M e n))

/-- The loop guard quantity abs(EccenAnom - E) at state n; the initial E is 0,
afterwards E is the previous EccenAnom. -/
noncomputable def keplerChange (M e : ℝ) : ℕ → ℝ
  | 0 => |M|
  | n + 1 => |keplerE M e (n + 1) - keplerE M e n|

/-- The while-loop guard fails at iteration count k: every element of the
batch of (mean anomaly, eccentricity) pairs has changed by at most 0.0001. -/
def BatchConverged (ps : List (ℝ × ℝ)) (k : ℕ) : Prop :=
  ∀ p ∈ ps, keplerChange p.1 p.2 k ≤ 0.0001

/-- The iteration count at which the whole-batch loop exits: the first k at
which the guard fails (junk value 0 when the loop never exits, in which case
the source spins forever). -/
noncomputable def keplerExitIndex (ps : List (ℝ × ℝ)) : ℕ :=
  if h : ∃ k, BatchConverged ps k then Nat.find h else 0

/-- The (mean anomaly, eccentricity) pair of each instant, the data the
whole-batch Kepler loop iterates on. -/
noncomputable def keplerPairs (xs : List EphemInput) : List (ℝ × ℝ) :=
  xs.map fun i => (MeanAnom i, Eccen i)

/-- EccenAnom of instant i after k loop iterations. -/
noncomputable def EccenAnom (i : EphemInput) (k : ℕ) : ℝ :=
  keplerE (MeanAnom i) (Eccen i) k

/-- TrueAnom = 2 * mod(degrees(arctan2(sqrt((1+e)/(1-e)) * tan(radians(EccenAnom)/2), 1)), 360). -/
noncomputable def TrueAnom (i : EphemInput) (k : ℕ) : ℝ :=
  2 * mod360 (degrees (atan2
    (Real.sqrt ((1 + Eccen i) / (1 - Eccen i)) * Real.tan (radians (EccenAnom i k) / 2)) 1))

/-- The ecliptic-longitude stage: EcLon = mod(MlPerigee + TrueAnom, 360) - Abber.
The aberration is subtracted after the reduction mod 360. -/
noncomputable def ecLonOf (ml ta : ℝ) : ℝ := mod360 (ml + ta) - Abber

/-- EcLon of instant i after k Kepler iterations. -/
noncomputable def EcLon (i : EphemInput) (k : ℕ) : ℝ :=
  ecLonOf (MlPerigee i) (TrueAnom i k)

/-- EcLonR = radians(EcLon). -/
noncomputable def EcLonR (i : EphemInput) (k : ℕ) : ℝ := radians (EcLon i k)

/-- DecR = arcsin(sin(ObliquityR) * sin(EcLonR)). -/
noncomputable def DecR (i : EphemInput) (k : ℕ) : ℝ :=
  Real.arcsin (Real.sin (ObliquityR i) * Real.sin (EcLonR i k))

/-- RtAscen = degrees(arctan2(cos(ObliquityR) * sin(EcLonR), cos(EcLonR))). -/
noncomputable def RtAscen (i : EphemInput) (k : ℕ) : ℝ :=
  degrees (atan2 (Real.cos (ObliquityR i) * Real.sin (EcLonR i k)) (Real.cos (EcLonR i k)))

/-- The hour angle before wrapping: LocAST - RtAscen. -/
noncomputable def HrAngleRaw (i : EphemInput) (lon : ℝ) (k : ℕ) : ℝ :=
  LocAST i lon - RtAscen i k

/-- The wrap HrAngle := HrAngle - 360 * (abs(HrAngle) > 180), with the
boolean read as 1 or 0. -/
noncomputable def wrapHourAngle (h : ℝ) : ℝ :=
  h - 360 * (if 180 < |h| then (1 : ℝ) else 0)

/-- The wrapped hour angle. -/
noncomputable def HrAngle (i : EphemInput) (lon : ℝ) (k : ℕ) : ℝ :=
  wrapHourAngle (HrAngleRaw i lon k)

/-- HrAngleR = radians of the raw hour angle (the source converts before wrapping). -/
noncomputable def HrAngleR (i : EphemInput) (lon : ℝ) (k : ℕ) : ℝ :=
  radians (HrAngleRaw i lon k)

/-- SunAz before normalization: degrees(arctan2(-sin(HrAngleR),
cos(LatR) * tan(DecR) - sin(LatR) * cos(HrAngleR))). -/
noncomputable def SunAzRaw (i : EphemInput) (lat lon : ℝ) (k : ℕ) : ℝ :=
  degrees (atan2 (-1 * Real.sin (HrAngleR i lon k))
    (Real.cos (radians lat) * Real.tan (DecR i k) -
      Real.sin (radians lat) * Real.cos (HrAngleR i lon k)))

/-- SunAz after the normalization SunAz[SunAz < 0] += 360. -/
noncomputable def SunAz (i : EphemInput) (lat lon : ℝ) (k : ℕ) : ℝ :=
  if SunAzRaw i lat lon k < 0 then SunAzRaw i lat lon k + 360 else SunAzRaw i lat lon k

/-- SunEl = degrees(arcsin(cos(LatR) cos(DecR) cos(HrAngleR) + sin(LatR) sin(DecR))). -/
noncomputable def SunEl (i : EphemInput) (lat lon : ℝ) (k : ℕ) : ℝ :=
  degrees (Real.arcsin (Real.cos (radians lat) * Real.cos (DecR i k) * Real.cos (HrAngleR i lon k) +
    Real.sin (radians lat) * Real.sin (DecR i k)))

/-- SolarTime as a function of the wrapped hour angle: (180 + HrAngle) / 15. -/
noncomputable def solarTimeOf (h : ℝ) : ℝ := (180 + h) / 15

/-- SolarTime of instant i. -/
noncomputable def SolarTime (i : EphemInput) (lon : ℝ) (k : ℕ) : ℝ :=
  solarTimeOf (HrAngle i lon k)

/-- The raw refraction value: the three masked assignments into the zero-filled
series, written as nested conditionals with the last assignment checked first
(the ranges are mutually exclusive, so the order is immaterial). -/
noncomputable def refractRawCode (el : ℝ) : ℝ :=
  if -1 < el ∧ el ≤ -0.575 then -20.774 / Real.tan (radians el)
  else if -0.575 < el ∧ el ≤ 5 then
    el * (-518.2 + el * (103.4 + el * (-12.79 + el * 0.711))) + 1735
  else if 5 < el ∧ el ≤ 85 then
    58.1 / Real.tan (radians el) - 0.07 / Real.tan (radians el) ^ 3 +
      8.6e-5 / Real.tan (radians el) ^ 5
  else 0

/-- Refract after the in-place scaling Refract *= (283/(273+T)) * (P/101325) / 3600. -/
noncomputable def refractScaled (el p tm : ℝ) : ℝ :=
  refractRawCode el * ((283 / (273 + tm)) * (p / 101325) / 3600)

/-- The tabulated piecewise refraction model, written in the order of the
specification table: (5, 85], then (-0.575, 5], then (-1, -0.575], else 0. -/
noncomputable def refractPiecewise (el : ℝ) : ℝ :=
  if 5 < el ∧ el ≤ 85 then
    58.1 / Real.tan (radians el) - 0.07 / Real.tan (radians el) ^ 3 +
      8.6e-5 / Real.tan (radians el) ^ 5
  else if -0.575 < el ∧ el ≤ 5 then
    el * (-518.2 + el * (103.4 + el * (-12.79 + el * 0.711))) + 1735
  else if -1 < el ∧ el ≤ -0.575 then -20.774 / Real.tan (radians el)
  else 0

/-- The refraction correction of instant i. -/
noncomputable def Refract (i : EphemInput) (lat lon p tm : ℝ) (k : ℕ) : ℝ :=
  refractScaled (SunEl i lat lon k) p tm

/-- One output row: elevation, azimuth, zenith = 90 - elevation,
apparent_elevation = elevation + Refract, apparent_zenith = 90 - apparent_elevation,
solar_time. -/
noncomputable def ephemRecord (i : EphemInput) (lat lon p tm : ℝ) (k : ℕ) : EphemRecord :=
  { elevation := SunEl i lat lon k
    azimuth := SunAz i lat lon k
    zenith := 90 - SunEl i lat lon k
    apparent_elevation := SunEl i lat lon k + Refract i lat lon p tm k
    apparent_zenith := 90 - (SunEl i lat lon k + Refract i lat lon p tm k)
    solar_time := SolarTime i lon k }

/-- The whole pipeline: every instant is evaluated at the single whole-batch
Kepler exit index. -/
noncomputable def ephemeris (xs : List EphemInput) (lat lon p tm : ℝ) : List EphemRecord :=
  xs.map fun i => ephemRecord i lat lon p tm (keplerExitIndex (keplerPairs xs))

/-! ## Helper lemmas -/

lemma mod360_eq_self_sub (x : ℝ) : mod360 x = x - 360 * (⌊x / 360⌋ : ℤ) := rfl

lemma mul_div_cancel360 (x : ℝ) : 360 * (x / 360) = x := by ring

lemma mod360_nonneg (x : ℝ) : 0 ≤ mod360 x := by
  have h : ((⌊x / 360⌋ : ℤ) : ℝ) ≤ x / 360 := Int.floor_le _
  have h2 : 360 * ((⌊x / 360⌋ : ℤ) : ℝ) ≤ 360 * (x / 360) := by linarith
  have h3 := mul_div_cancel360 x
  unfold mod360
  linarith

lemma mod360_lt (x : ℝ) : mod360 x < 360 := by
  have h : x / 360 < (⌊x / 360⌋ : ℤ) + 1 := Int.lt_floor_add_one _
  have h2 : 360 * (x / 360) < 360 * (((⌊x / 360⌋ : ℤ) : ℝ) + 1) := by linarith
  have h3 := mul_div_cancel360 x
  unfold mod360
  push_cast at h2 ⊢
  linarith

lemma atan2_mem (y x : ℝ) : -Real.pi < atan2 y x ∧ atan2 y x ≤ Real.pi := by
  have hπ := Real.pi_pos
  unfold atan2
  split_ifs with hx hx2 hy hy1 hy2
  · have h1 := Real.arctan_lt_pi_div_two (y / x)
    have h2 := Real.neg_pi_div_two_lt_arctan (y / x)
    constructor <;> linarith
  · have hyx : y / x ≤ 0 := div_nonpos_of_nonneg_of_nonpos hy hx2.le
    have h0 : Real.arctan (y / x) ≤ Real.arctan 0 := Real.arctan_strictMono.le_iff_le.mpr hyx
    rw [Real.arctan_zero] at h0
    have h2 := Real.neg_pi_div_two_lt_arctan (y / x)
    constructor <;> linarith
  · have hy' : y < 0 := lt_of_not_le hy
    have hyx : 0 < y / x := div_pos_of_neg_of_neg hy' hx2
    have h0 : Real.arctan 0 < Real.arctan (y / x) := Real.arctan_strictMono hyx
    rw [Real.arctan_zero] at h0
    have h1 := Real.arctan_lt_pi_div_two (y / x)
    constructor <;> linarith
  · constructor <;> linarith
  · constructor <;> linarith
  · constructor <;> linarith

lemma degrees_le_degrees {a b : ℝ} (h : a ≤ b) : degrees a ≤ degrees b := by
  unfold degrees
  have hπ := Real.pi_pos
  have h2 : a * 180 ≤ b * 180 := by linarith
  exact (div_le_div_iff_of_pos_right hπ).mpr h2

lemma degrees_lt_degrees {a b : ℝ} (h : a < b) : degrees a < degrees b := by
  unfold degrees
  have hπ := Real.pi_pos
  have h2 : a * 180 < b * 180 := by linarith
  exact (div_lt_div_iff_of_pos_right hπ).mpr h2

lemma degrees_neg (x : ℝ) : degrees (-x) = -degrees x := by
  unfold degrees
  ring

lemma degrees_pi : degrees Real.pi = 180 := by
  unfold degrees
  rw [mul_comm, mul_div_assoc, div_self Real.pi_ne_zero, mul_one]

lemma degrees_neg_pi : degrees (-Real.pi) = -180 := by
  rw [degrees_neg, degrees_pi]

lemma degrees_pi_div_two : degrees (Real.pi / 2) = 90 := by
  have h : degrees (Real.pi / 2) = degrees Real.pi / 2 := by
    unfold degrees
    ring
  rw [h, degrees_pi]
  norm_num

lemma degrees_neg_pi_div_two : degrees (-(Real.pi / 2)) = -90 := by
  rw [degrees_neg, degrees_pi_div_two]

lemma degrees_mem_of_angle {z : ℝ} (h1 : -Real.pi < z) (h2 : z ≤ Real.pi) :
    -180 < degrees z ∧ degrees z ≤ 180 := by
  constructor
  · have := degrees_lt_degrees h1
    rwa [degrees_neg_pi] at this
  · have := degrees_le_degrees h2
    rwa [degrees_pi] at this

lemma degrees_arcsin_mem (z : ℝ) : -90 ≤ degrees (Real.arcsin z) ∧ degrees (Real.arcsin z) ≤ 90 := by
  constructor
  · have := degrees_le_degrees (Real.neg_pi_div_two_le_arcsin z)
    rwa [degrees_neg_pi_div_two] at this
  · have := degrees_le_degrees (Real.arcsin_le_pi_div_two z)
    rwa [degrees_pi_div_two] at this

lemma locAST_mem (i : EphemInput) (lon : ℝ) : 0 ≤ LocAST i lon ∧ LocAST i lon < 360 :=
  ⟨mod360_nonneg _, mod360_lt _⟩

lemma rtAscen_mem (i : EphemInput) (k : ℕ) : -180 < RtAscen i k ∧ RtAscen i k ≤ 180 := by
  unfold RtAscen
  have h := atan2_mem (Real.cos (ObliquityR i) * Real.sin (EcLonR i k)) (Real.cos (EcLonR i k))
  exact degrees_mem_of_angle h.1 h.2

lemma sunAzRaw_mem (i : EphemInput) (lat lon : ℝ) (k : ℕ) :
    -180 < SunAzRaw i lat lon k ∧ SunAzRaw i lat lon k ≤ 180 := by
  unfold SunAzRaw
  have h := atan2_mem (-1 * Real.sin (HrAngleR i lon k))
    (Real.cos (radians lat) * Real.tan (DecR i k) -
      Real.sin (radians lat) * Real.cos (HrAngleR i lon k))
  exact degrees_mem_of_angle h.1 h.2

lemma hrAngleRaw_bounds (i : EphemInput) (lon : ℝ) (k : ℕ) :
    -180 ≤ HrAngleRaw i lon k ∧ HrAngleRaw i lon k < 540 := by
  have h1 := locAST_mem i lon
  have h2 := rtAscen_mem i k
  unfold HrAngleRaw
  constructor <;> linarith

lemma wrapHourAngle_spec {h : ℝ} (hlo : -180 ≤ h) (hhi : h < 540) :
    -180 ≤ wrapHourAngle h ∧ wrapHourAngle h ≤ 180 ∧
      ∃ m : ℤ, wrapHourAngle h = h - 360 * m := by
  unfold wrapHourAngle
  by_cases hc : 180 < |h|
  · rw [if_pos hc]
    have hpos : 180 < h := by
      rcases abs_cases h with ⟨he, hs⟩ | ⟨he, hs⟩
      · linarith [he ▸ hc]
      · rw [he] at hc
        linarith
    refine ⟨by linarith, by linarith, ⟨1, by norm_num⟩⟩
  · rw [if_neg hc]
    push_neg at hc
    have habs : h ≤ 180 := le_trans (le_abs_self h) hc
    refine ⟨by linarith, by linarith, ⟨0, by norm_num⟩⟩

lemma hrAngle_bounds (i : EphemInput) (lon : ℝ) (k : ℕ) :
    -180 ≤ HrAngle i lon k ∧ HrAngle i lon k ≤ 180 := by
  have hb := hrAngleRaw_bounds i lon k
  have hw := wrapHourAngle_spec hb.1 hb.2
  exact ⟨hw.1, hw.2.1⟩

lemma abs_sin_sub_sin_le (a b : ℝ) : |Real.sin a - Real.sin b| ≤ |a - b| := by
  rw [Real.sin_sub_sin]
  rw [abs_mul, abs_mul]
  have h1 : |Real.sin ((a - b) / 2)| ≤ |(a - b) / 2| := Real.abs_sin_le_abs
  have h2 : |Real.cos ((a + b) / 2)| ≤ 1 := Real.abs_cos_le_one _
  have h3 : |(2 : ℝ)| = 2 := by norm_num
  rw [h3]
  calc 2 * |Real.sin ((a - b) / 2)| * |Real.cos ((a + b) / 2)|
      ≤ 2 * |(a - b) / 2| * 1 := by
        apply mul_le_mul (by linarith [abs_nonneg (Real.sin ((a - b) / 2))]) h2
          (abs_nonneg _) (by positivity)
    _ = |a - b| := by
        rw [mul_one, abs_div, h3]
        ring

lemma degrees_nonneg_of {e : ℝ} (he : 0 ≤ e) : 0 ≤ degrees e := by
  unfold degrees
  exact div_nonneg (mul_nonneg he (by norm_num)) Real.pi_pos.le

lemma keplerE_zero (M e : ℝ) : keplerE M e 0 = M := rfl

lemma keplerE_succ (M e : ℝ) (n : ℕ) :
    keplerE M e (n + 1) = M + degrees e * Real.sin (radians (keplerE M e n)) := rfl

lemma keplerChange_zero (M e : ℝ) : keplerChange M e 0 = |M| := rfl

lemma keplerChange_succ (M e : ℝ) (n : ℕ) :
    keplerChange M e (n + 1) = |keplerE M e (n + 1) - keplerE M e n| := rfl

lemma keplerChange_nonneg (M e : ℝ) (n : ℕ) : 0 ≤ keplerChange M e n := by
  cases n <;> [rw [keplerChange_zero]; rw [keplerChange_succ]] <;> exact abs_nonneg _

lemma keplerChange_contraction (M e : ℝ) (he : 0 ≤ e) (n : ℕ) :
    keplerChange M e (n + 2) ≤ e * keplerChange M e (n + 1) := by
  have hπ := Real.pi_pos
  have h1 : keplerE M e (n + 2) - keplerE M e (n + 1)
      = degrees e * (Real.sin (radians (keplerE M e (n + 1))) -
          Real.sin (radians (keplerE M e n))) := by
    rw [keplerE_succ M e (n + 1), keplerE_succ M e n]
    ring
  rw [keplerChange_succ, h1, abs_mul, abs_of_nonneg (degrees_nonneg_of he)]
  calc degrees e * |Real.sin (radians (keplerE M e (n + 1))) - Real.sin (radians (keplerE M e n))|
      ≤ degrees e * |radians (keplerE M e (n + 1)) - radians (keplerE M e n)| := by
        exact mul_le_mul_of_nonneg_left (abs_sin_sub_sin_le _ _) (degrees_nonneg_of he)
    _ = e * keplerChange M e (n + 1) := by
        rw [keplerChange_succ]
        unfold radians degrees
        rw [show keplerE M e (n + 1) * Real.pi / 180 - keplerE M e n * Real.pi / 180
            = (Real.pi / 180) * (keplerE M e (n + 1) - keplerE M e n) from by ring]
        rw [abs_mul, abs_of_nonneg (by positivity : (0 : ℝ) ≤ Real.pi / 180)]
        field_simp
        ring

lemma keplerChange_one_le (M e : ℝ) (he : 0 ≤ e) :
    keplerChange M e 1 ≤ e * (180 / Real.pi) := by
  rw [keplerChange_succ, keplerE_succ, keplerE_zero]
  rw [show M + degrees e * Real.sin (radians M) - M = degrees e * Real.sin (radians M) from by ring]
  rw [abs_mul, abs_of_nonneg (degrees_nonneg_of he)]
  have hs : |Real.sin (radians M)| ≤ 1 :=
    abs_le.mpr ⟨Real.neg_one_le_sin _, Real.sin_le_one _⟩
  calc degrees e * |Real.sin (radians M)| ≤ degrees e * 1 :=
        mul_le_mul_of_nonneg_left hs (degrees_nonneg_of he)
    _ = e * (180 / Real.pi) := by
        unfold degrees
        ring

lemma keplerChange_four_le (M e : ℝ) (he0 : 0 ≤ e) (he2 : e ≤ 0.02) :
    keplerChange M e 4 ≤ 0.0001 := by
  have hπ := Real.pi_pos
  have hb : 180 / Real.pi ≤ 60 := by
    rw [div_le_iff₀ hπ]
    nlinarith [Real.pi_gt_three]
  have b1 : keplerChange M e 1 ≤ 1.2 := by
    have h1 := keplerChange_one_le M e he0
    have h2 : e * (180 / Real.pi) ≤ e * 60 := mul_le_mul_of_nonneg_left hb he0
    have h3 : e * 60 ≤ 0.02 * 60 := mul_le_mul_of_nonneg_right he2 (by norm_num)
    linarith
  have b2 : keplerChange M e 2 ≤ 0.024 := by
    have h := keplerChange_contraction M e he0 0
    have h2 : e * keplerChange M e 1 ≤ 0.02 * 1.2 :=
      mul_le_mul he2 b1 (keplerChange_nonneg M e 1) (by norm_num)
    norm_num at h2 ⊢
    linarith
  have b3 : keplerChange M e 3 ≤ 0.00048 := by
    have h := keplerChange_contraction M e he0 1
    have h2 : e * keplerChange M e 2 ≤ 0.02 * 0.024 :=
      mul_le_mul he2 b2 (keplerChange_nonneg M e 2) (by norm_num)
    norm_num at h2 ⊢
    linarith
  have h := keplerChange_contraction M e he0 2
  have h2 : e * keplerChange M e 3 ≤ 0.02 * 0.00048 :=
    mul_le_mul he2 b3 (keplerChange_nonneg M e 3) (by norm_num)
  norm_num at h2 ⊢
  linarith

lemma exitIndex_converged (ps : List (ℝ × ℝ)) (h : ∃ k, BatchConverged ps k) :
    BatchConverged ps (keplerExitIndex ps) := by
  unfold keplerExitIndex
  rw [dif_pos h]
  exact Nat.find_spec h

lemma exitIndex_min (ps : List (ℝ × ℝ)) (h : ∃ k, BatchConverged ps k)
    (j : ℕ) (hj : BatchConverged ps j) : keplerExitIndex ps ≤ j := by
  unfold keplerExitIndex
  rw [dif_pos h]
  exact Nat.find_min' h hj

/-! ## Claim theorems -/

/-- Claim C1 (supporting theorem): the whole-batch Kepler loop has no exit
mechanism other than convergence.  Whenever some iteration count meets the
tolerance, the loop exits at the first such count, and the state it returns
satisfies the 0.0001-degree bound, so it never returns a stale estimate;
there is no iteration counter and no error outcome in the source. -/
theorem kepler_loop_exit_iff_convergence (ps : List (ℝ × ℝ))
    (h : ∃ k, BatchConverged ps k) :
    BatchConverged ps (keplerExitIndex ps) ∧
      ∀ j, BatchConverged ps j → keplerExitIndex ps ≤ j :=
  ⟨exitIndex_converged ps h, exitIndex_min ps h⟩

/-- Witness for C1 at the concrete singleton batch (M, e) = (0, 0). -/
theorem kepler_loop_exit_iff_convergence_witness :
    BatchConverged [((0 : ℝ), (0 : ℝ))] (keplerExitIndex [((0 : ℝ), (0 : ℝ))]) ∧
      ∀ j, BatchConverged [((0 : ℝ), (0 : ℝ))] j → keplerExitIndex [((0 : ℝ), (0 : ℝ))] ≤ j :=
  kepler_loop_exit_iff_convergence _ ⟨0, by
    intro p hp
    simp only [List.mem_singleton] at hp
    subst hp
    rw [keplerChange_zero]
    norm_num⟩

/-- Claim C2: for a batch whose eccentricities lie in [0, 0.02] and whose mean
anomalies lie in [0, 360), the whole-batch fixed-point iteration converges
(already within four iterations), so the loop terminates, and the state at the
exit index satisfies the 0.0001-degree whole-batch bound. -/
theorem kepler_solver_converges (ps : List (ℝ × ℝ))
    (h : ∀ p ∈ ps, 0 ≤ p.2 ∧ p.2 ≤ 0.02 ∧ 0 ≤ p.1 ∧ p.1 < 360) :
    BatchConverged ps 4 ∧ (∃ k, BatchConverged ps k) ∧
      BatchConverged ps (keplerExitIndex ps) := by
  have h4 : BatchConverged ps 4 := by
    intro p hp
    exact keplerChange_four_le p.1 p.2 (h p hp).1 (h p hp).2.1
  exact ⟨h4, ⟨4, h4⟩, exitIndex_converged ps ⟨4, h4⟩⟩

/-- Witness for C2 at the concrete singleton batch (M, e) = (90, 0.02). -/
theorem kepler_solver_converges_witness :
    BatchConverged [((90 : ℝ), (0.02 : ℝ))] 4 ∧
      (∃ k, BatchConverged [((90 : ℝ), (0.02 : ℝ))] k) ∧
      BatchConverged [((90 : ℝ), (0.02 : ℝ))] (keplerExitIndex [((90 : ℝ), (0.02 : ℝ))]) :=
  kepler_solver_converges _ (by
    intro p hp
    simp only [List.mem_singleton] at hp
    subst hp
    norm_num)

/-- Claim C3: the refraction correction equals the tabulated piecewise raw
value of the branch containing the elevation times the scale factor
(283/(273+T)) * (P/101325) / 3600; with pressure 0 the correction vanishes
for every elevation, so apparent elevation equals true elevation. -/
theorem refraction_scaled_piecewise :
    (∀ el p tm : ℝ, refractScaled el p tm =
      refractPiecewise el * ((283 / (273 + tm)) * (p / 101325) / 3600)) ∧
    (∀ el tm : ℝ, refractScaled el 0 tm = 0) ∧
    (∀ (i : EphemInput) (lat lon tm : ℝ) (k : ℕ),
      (ephemRecord i lat lon 0 tm k).apparent_elevation =
        (ephemRecord i lat lon 0 tm k).elevation) := by
  have hzero : ∀ el tm : ℝ, refractScaled el 0 tm = 0 := by
    intro el tm
    unfold refractScaled
    norm_num
  refine ⟨?_, hzero, ?_⟩
  · intro el p tm
    unfold refractScaled refractRawCode refractPiecewise
    by_cases h1 : -1 < el ∧ el ≤ -0.575
    · have h2 : ¬(-0.575 < el ∧ el ≤ 5) := by
        rintro ⟨a, b⟩
        linarith [h1.2]
      have h3 : ¬(5 < el ∧ el ≤ 85) := by
        rintro ⟨a, b⟩
        linarith [h1.2]
      rw [if_pos h1, if_neg h3, if_neg h2, if_pos h1]
    · by_cases h2 : -0.575 < el ∧ el ≤ 5
      · have h3 : ¬(5 < el ∧ el ≤ 85) := by
          rintro ⟨a, b⟩
          linarith [h2.2]
        rw [if_neg h1, if_pos h2, if_neg h3, if_pos h2]
      · by_cases h3 : 5 < el ∧ el ≤ 85
        · rw [if_neg h1, if_neg h2, if_pos h3, if_pos h3]
        · rw [if_neg h1, if_neg h2, if_neg h3, if_neg h3, if_neg h2, if_neg h1]
  · intro i lat lon tm k
    show SunEl i lat lon k + Refract i lat lon 0 tm k = SunEl i lat lon k
    unfold Refract
    rw [hzero]
    ring

/-- Claim C4: the caller longitude is negated exactly once, and the local
apparent sidereal time is mod(360 + GMST - negatedLongitude, 360), which for a
caller longitude lam equals mod(360 + GMST + lam, 360). -/
theorem locAST_longitude_convention (i : EphemInput) (lon : ℝ) :
    LocAST i lon = mod360 (360 + GMSTi i - internalLongitude lon) ∧
    LocAST i lon = mod360 (360 + GMSTi i + lon) := by
  refine ⟨rfl, ?_⟩
  unfold LocAST internalLongitude
  congr 1
  ring

/-- Counterexample for C5: the wrap used by the source maps the boundary raw
hour angle -180 to -180 itself, which is not in the half-open interval
(-180, 180]; the claimed codomain is wrong at this boundary. -/
theorem wrapHourAngle_boundary_not_Ioc :
    wrapHourAngle (-180) = -180 ∧ wrapHourAngle (-180) ∉ Set.Ioc (-180 : ℝ) 180 := by
  have habs : |(-180 : ℝ)| = 180 := by
    rw [abs_of_nonpos (by norm_num : (-180 : ℝ) ≤ 0)]
    norm_num
  have h1 : wrapHourAngle (-180) = -180 := by
    unfold wrapHourAngle
    rw [habs, if_neg (lt_irrefl 180)]
    ring
  refine ⟨h1, ?_⟩
  rw [h1]
  intro hmem
  exact lt_irrefl _ hmem.1

/-- Claim C5 (amended): the hour angle equals LocAST minus right ascension
shifted by an integer multiple of 360 into the closed interval [-180, 180];
the value -180 is attainable as written, so the interval is closed below,
not half-open. -/
theorem hrAngle_wrap_closed (i : EphemInput) (lon : ℝ) (k : ℕ) :
    -180 ≤ HrAngle i lon k ∧ HrAngle i lon k ≤ 180 ∧
      ∃ m : ℤ, HrAngle i lon k = LocAST i lon - RtAscen i k - 360 * m := by
  have hb := hrAngleRaw_bounds i lon k
  have hw := wrapHourAngle_spec hb.1 hb.2
  refine ⟨hw.1, hw.2.1, ?_⟩
  obtain ⟨m, hm⟩ := hw.2.2
  refine ⟨m, ?_⟩
  unfold HrAngle
  rw [hm]
  unfold HrAngleRaw
  rfl

/-- Counterexample for C6: at the ecliptic-longitude stage with mean longitude
of perigee 0 and true anomaly 0, the source value mod(0 + 0, 360) - Abber is
negative and differs from the claimed mod(0 + 0 - Abber, 360). -/
theorem ecLon_aberration_order_counterexample :
    ecLonOf 0 0 ≠ mod360 (0 + 0 - Abber) ∧ ecLonOf 0 0 < 0 := by
  have h1 : ecLonOf 0 0 = -(20 / 3600 : ℝ) := by
    unfold ecLonOf Abber mod360
    rw [show ((0 : ℝ) + 0) / 360 = 0 from by norm_num, Int.floor_zero]
    push_cast
    ring
  have hf : (⌊(((0 : ℝ) + 0 - 20 / 3600)) / 360⌋ : ℤ) = -1 := by
    apply Int.floor_eq_iff.mpr
    constructor <;> norm_num
  have h2 : mod360 ((0 : ℝ) + 0 - Abber) = 360 - 20 / 3600 := by
    unfold mod360 Abber
    rw [hf]
    push_cast
    ring
  constructor
  · rw [h1, h2]
    norm_num
  · rw [h1]
    norm_num

/-- Claim C6 (amended): the ecliptic longitude equals the mod-360 reduction of
(mean longitude of perigee + true anomaly) with the 20 arcsecond aberration
subtracted afterwards, hence it lies in [-Abber, 360 - Abber), not [0, 360). -/
theorem ecLon_mod_then_aberration (i : EphemInput) (k : ℕ) :
    EcLon i k = mod360 (MlPerigee i + TrueAnom i k) - Abber ∧
      -Abber ≤ EcLon i k ∧ EcLon i k < 360 - Abber := by
  refine ⟨rfl, ?_, ?_⟩
  · have h := mod360_nonneg (MlPerigee i + TrueAnom i k)
    unfold EcLon ecLonOf
    linarith
  · have h := mod360_lt (MlPerigee i + TrueAnom i k)
    unfold EcLon ecLonOf
    linarith

/-- Claim C7: every output azimuth lies in [0, 360) and every output elevation
lies in [-90, 90]. -/
theorem azimuth_elevation_ranges (i : EphemInput) (lat lon p tm : ℝ) (k : ℕ) :
    (0 ≤ (ephemRecord i lat lon p tm k).azimuth ∧
      (ephemRecord i lat lon p tm k).azimuth < 360) ∧
    (-90 ≤ (ephemRecord i lat lon p tm k).elevation ∧
      (ephemRecord i lat lon p tm k).elevation ≤ 90) := by
  constructor
  · show 0 ≤ SunAz i lat lon k ∧ SunAz i lat lon k < 360
    have hr := sunAzRaw_mem i lat lon k
    unfold SunAz
    by_cases hc : SunAzRaw i lat lon k < 0
    · rw [if_pos hc]
      constructor <;> linarith [hr.1, hr.2]
    · rw [if_neg hc]
      push_neg at hc
      constructor <;> linarith [hr.2]
  · show -90 ≤ SunEl i lat lon k ∧ SunEl i lat lon k ≤ 90
    unfold SunEl
    exact degrees_arcsin_mem _

/-- Claim C8: in every output record, zenith is exactly 90 minus elevation and
apparent zenith is exactly 90 minus apparent elevation, so both pairs sum
to 90. -/
theorem zenith_elevation_complement (i : EphemInput) (lat lon p tm : ℝ) (k : ℕ) :
    (ephemRecord i lat lon p tm k).zenith + (ephemRecord i lat lon p tm k).elevation = 90 ∧
    (ephemRecord i lat lon p tm k).apparent_zenith +
      (ephemRecord i lat lon p tm k).apparent_elevation = 90 := by
  constructor
  · show (90 - SunEl i lat lon k) + SunEl i lat lon k = 90
    ring
  · show (90 - (SunEl i lat lon k + Refract i lat lon p tm k)) +
      (SunEl i lat lon k + Refract i lat lon p tm k) = 90
    ring

/-- Claim C9: the pipeline is a pure function of its four inputs; two
invocations with equal time batches, location coordinates, pressure and
temperature yield equal output tables. -/
theorem ephemeris_deterministic (xs ys : List EphemInput)
    (lat1 lat2 lon1 lon2 p1 p2 tm1 tm2 : ℝ)
    (hxs : xs = ys) (hlat : lat1 = lat2) (hlon : lon1 = lon2)
    (hp : p1 = p2) (htm : tm1 = tm2) :
    ephemeris xs lat1 lon1 p1 tm1 = ephemeris ys lat2 lon2 p2 tm2 := by
  subst hxs hlat hlon hp htm
  rfl

/-- Witness for C9 at a concrete batch and location. -/
theorem ephemeris_deterministic_witness :
    ephemeris [⟨2003, 290, 19.5⟩] 39.75 (-105) 101325 12 =
      ephemeris [⟨2003, 290, 19.5⟩] 39.75 (-105) 101325 12 :=
  ephemeris_deterministic _ _ _ _ _ _ _ _ _ _ rfl rfl rfl rfl rfl

/-- Claim C10: every solar_time output lies in [0, 24] decimal hours, it is
computed as (180 + wrapped hour angle) / 15, and a wrapped hour angle of 0
gives solar time exactly 12. -/
theorem solar_time_bounds :
    (∀ (i : EphemInput) (lat lon p tm : ℝ) (k : ℕ),
        0 ≤ (ephemRecord i lat lon p tm k).solar_time ∧
        (ephemRecord i lat lon p tm k).solar_time ≤ 24 ∧
        (ephemRecord i lat lon p tm k).solar_time = solarTimeOf (HrAngle i lon k)) ∧
    solarTimeOf 0 = 12 := by
  constructor
  · intro i lat lon p tm k
    have hb := hrAngle_bounds i lon k
    refine ⟨?_, ?_, rfl⟩
    · show 0 ≤ solarTimeOf (HrAngle i lon k)
      unfold solarTimeOf
      linarith [hb.1]
    · show solarTimeOf (HrAngle i lon k) ≤ 24
      unfold solarTimeOf
      linarith [hb.2]
  · unfold solarTimeOf
    norm_num
